import Mathlib

/-!
Shallow embedding of the request-orchestration layer of the
`obsidian-jira-master` plugin (file `src/client/jiraClient.ts`, plus the
cache-key methods of `src/changelogView.ts` and `src/kanbanView.ts` and the
`accountsConflictsFix` routine of the settings class), together with proofs
about the claims of the specification.

JavaScript strings are modelled by `String` where only construction and
equality matter, and by `List Char` (`JStr`) inside `buildUrl`, where the
slash-normalisation logic needs structural reasoning.  JavaScript `undefined`
and `null` are modelled by `Option`; JavaScript truthiness tests on strings
and numbers are spelled out explicitly (`"" `and `0` are falsy).
-/

namespace Jira

/-- Whether the first character list is a prefix of the second. -/
def isPrefixList : List Char → List Char → Bool
  | [], _ => true
  | _ :: _, [] => false
  | a :: as, b :: bs => (a == b) && isPrefixList as bs

/-- Whether the pattern occurs contiguously somewhere in the list. -/
def occursIn (pat : List Char) : List Char → Bool
  | [] => pat.isEmpty
  | c :: rest => isPrefixList pat (c :: rest) || occursIn pat rest

/-- Substring test, modelling JavaScript `String.prototype.includes`. -/
def containsSubstr (s pat : String) : Bool :=
  occursIn pat.data s.data

/-- Truthiness of a JavaScript string-or-undefined value: `undefined`, `null`
and the empty string are falsy. -/
def strTruthy : Option String → Bool
  | some s => s ≠ ""
  | none => false

/-- One configured account (the fields of `IJiraIssueAccountSettings` that the
orchestration layer reads). -/
structure Account where
  aliasName : String  -- `alias` in the source; renamed because `alias` is a Lean keyword
  priority : Nat
  host : String
  rateLimitEnabled : Bool
  rateLimitDelayMs : Nat
  rateLimitConcurrent : Nat
  use2025Api : Bool
deriving DecidableEq, Repr

/-- The response headers the client reads (`content-type`, `retry-after`);
each individual header may be absent. -/
structure Headers where
  contentType : Option String
  retryAfter : Option String
deriving DecidableEq, Repr

/-- A parsed JSON body: the two fields the client inspects (`errorMessages`,
`message`) plus an opaque remainder standing for all other properties, which
the client spreads into a success result unchanged. -/
structure JsonBody where
  errorMessages : Option (List String)
  message : Option String
  payload : String
deriving DecidableEq, Repr

/-- A `RequestUrlResponse`: status code, optional headers object, optional
parsed JSON body (`undefined` when absent), optional text body.  A thrown
error-response with no usable status is modelled by `status = 0`, matching
`parseInt(response?.status?.toString() || '0')` in the source. -/
structure Response where
  status : Nat
  headers : Option Headers
  json : Option JsonBody
  text : Option String
deriving DecidableEq, Repr

/-- Function `isJsonResponse` from `jiraClient.ts`: the headers object exists, its
`content-type` contains `json`, and the parsed JSON body is defined. -/
def isJsonResponse (r : Response) : Bool :=
  match r.headers with
  | some h =>
    match h.contentType with
    | some ct => containsSubstr ct "json" && r.json.isSome
    | none => false
  | none => false

/-- Function `isTextResponse` from `jiraClient.ts`: the headers object exists, its
`content-type` contains `text`, and the text body is defined. -/
def isTextResponse (r : Response) : Bool :=
  match r.headers with
  | some h =>
    match h.contentType with
    | some ct => containsSubstr ct "text" && r.text.isSome
    | none => false
  | none => false

/-- An ASCII apostrophe, used to spell the fixed 403 message. -/
def apos : String := (Char.ofNat 39).toString

/-- Fixed message thrown for status 400. -/
def msg400 : String := "Bad Request: The query is not valid"

/-- Fixed message thrown for status 401. -/
def msg401 : String := "Unauthorized: Please check your authentication credentials"

/-- Fixed message thrown for status 403. -/
def msg403 : String :=
  "Forbidden: You don" ++ apos ++
    "t have permission to access this resource. Check your API token permissions and Jira project access."

/-- Fixed message thrown for status 404. -/
def msg404 : String := "Not Found: Issue does not exist"

/-- Fixed message thrown for status 410. -/
def msg410 : String := "Missing API: Activate the 2025 search api in the Jira Issue account settings"

/-- Fixed message thrown for status 429. -/
def msg429 : String := "Too Many Requests: Rate limit exceeded (should have been retried)"

/-- The error thrown at the end of `sendRequest`: either `new Error(string)`
with a composed message, or `new Error(response as any)` with the raw
response value (possibly `undefined`). -/
inductive ThrownError where
  | message (msg : String)
  | raw (response : Option Response)
deriving DecidableEq, Repr

/-- The `message` detail of the generic (default) branch of the status switch:
a JSON `message` field when present and truthy, the fixed text
`Login required` when the body is an HTML login page, `HTTP <status>`
otherwise. -/
def genericDetail (r : Response) : String :=
  if isJsonResponse r ∧ strTruthy (r.json.bind (·.message)) then
    (r.json.bind (·.message)).getD ""
  else if isTextResponse r ∧ containsSubstr ((r.text).getD "") "<title>Log in" then
    "Login required"
  else
    "HTTP " ++ toString r.status

/-- The error-classification tail of `sendRequest` (`jiraClient.ts:184-213`):
a JSON `errorMessages` array is surfaced first (joined with newlines), then a
truthy status is mapped through the switch, otherwise the raw response is
thrown. -/
def classify (response : Option Response) : ThrownError :=
  match response with
  | none => .raw none
  | some r =>
    if r.headers.isSome ∧ isJsonResponse r ∧ (r.json.bind (·.errorMessages)).isSome then
      .message (String.intercalate "\n" ((r.json.bind (·.errorMessages)).getD []))
    else if r.status ≠ 0 then
      if r.status = 400 then .message msg400
      else if r.status = 401 then .message msg401
      else if r.status = 403 then .message msg403
      else if r.status = 404 then .message msg404
      else if r.status = 410 then .message msg410
      else if r.status = 429 then .message msg429
      else .message ("Jira API " ++ toString r.status ++ " Error: " ++ genericDetail r)
    else
      .raw (some r)

/-- The value a call to `sendRequest` produces: `{account}` on 204,
`{...json, account}` on 200-with-JSON, or a thrown error. -/
inductive SendResult where
  | noContent (account : Account)
  | success (body : JsonBody) (account : Account)
  | error (e : ThrownError)
deriving DecidableEq, Repr

/-- The multi-account loop of `sendRequest` (`jiraClient.ts:167-181`), given
the final response each account's queue/retry pipeline would deliver.  It
returns the loop's outcome — a success, or the last captured response to be
classified — together with the trace of accounts actually dispatched to. -/
def sendRequestLoop (respOf : Account → Response) :
    List Account → Option Response → (SendResult ⊕ Option Response) × List Account
  | [], last => (.inr last, [])
  | a :: rest, _ =>
    let r := respOf a
    if r.status = 204 then (.inl (.noContent a), [a])
    else if r.status = 200 ∧ isJsonResponse r then
      (.inl (.success (r.json.getD ⟨none, none, ""⟩) a), [a])
    else if r.status / 100 ≠ 4 then (.inr (some r), [a])
    else
      let next := sendRequestLoop respOf rest (some r)
      (next.1, a :: next.2)

/-- Function `sendRequest` (`jiraClient.ts:155-214`), abstracted over the response each
account would deliver: dispatch to the named account when one is given,
otherwise walk the configured accounts; classify the captured response when
no dispatch succeeded.  Also returns the trace of accounts dispatched to. -/
def sendRequest (accounts : List Account) (respOf : Account → Response)
    (target : Option Account) : SendResult × List Account :=
  match target with
  | some a =>
    let r := respOf a
    if r.status = 204 then (.noContent a, [a])
    else if r.status = 200 ∧ isJsonResponse r then
      (.success (r.json.getD ⟨none, none, ""⟩) a, [a])
    else (.error (classify (some r)), [a])
  | none =>
    let out := sendRequestLoop respOf accounts none
    (match out.1 with
      | .inl res => res
      | .inr last => .error (classify last), out.2)

/-- Constant `MAX_RETRIES` from `jiraClient.ts`. -/
def MAX_RETRIES : Nat := 5

/-- Modelled from the spec: `parseRetryAfter` lives in the repository's
`src/utils.ts`, which is not present under `src/`.  Per the spec it accepts an
integer number of seconds (returned as milliseconds) or an HTTP-date, and
returns `null` (here `none`) if unparseable.  The HTTP-date branch is elided:
the inputs used below are either integer strings or unparseable. -/
def parseRetryAfter (s : String) : Option Nat :=
  if s.data ≠ [] ∧ s.data.all (·.isDigit) then
    some ((s.data.foldl (fun n c => n * 10 + (c.toNat - 48)) 0) * 1000)
  else none

/-- Modelled from the spec: `exponentialBackoff` lives in the repository's
missing `src/utils.ts`.  Per the spec the delay grows geometrically with the
attempt index (base times two to the attempt, with a cap). -/
def exponentialBackoff (attempt : Nat) : Nat :=
  min (1000 * 2 ^ attempt) 30000

/-- One physical HTTP attempt as the retry loop sees it: the response value,
and whether `requestUrl` delivered it by throwing (`errorThrown` in the
source). -/
structure PhysAttempt where
  response : Response
  thrown : Bool
deriving DecidableEq, Repr

/-- The `retry-after` header of a response, `response.headers?.['retry-after']`
in the source (`undefined` when the headers object or the header is absent). -/
def retryAfterHeader (r : Response) : Option String :=
  r.headers.bind (·.retryAfter)

/-- The wait time the retry loop computes before a retry
(`jiraClient.ts:134-137`): the parse result of a truthy `retry-after` header
(which is `null`/`none` when unparseable), and the exponential backoff value
only when the header is absent or empty. -/
def computeWait (header : Option String) (attempt : Nat) : Option Nat :=
  if strTruthy header then parseRetryAfter (header.getD "")
  else some (exponentialBackoff attempt)

/-- What one execution of `sendRequestWithRetry` did: its terminal outcome
(`.ok` a returned response, `.error` a thrown one), the sleeps it performed
(`none` models JavaScript `sleep(null)` after an unparseable header), and the
number of physical attempts issued. -/
structure RetryTrace where
  result : Except Response Response
  waits : List (Option Nat)
  attemptsMade : Nat
deriving Repr

/-- The response a retry outcome carries, whether returned or thrown. -/
def outcomeResponse : Except Response Response → Response
  | .ok r => r
  | .error r => r

/-- Function `sendRequestWithRetry` (`jiraClient.ts:102-153`), abstracted over the
stream of physical attempts (`attempt ↦` what `requestUrl` does on that
attempt): on a 429 with attempts remaining, compute a wait, sleep it and
recurse with `attempt+1`; otherwise throw the response if it was thrown, else
return it. -/
def sendRequestWithRetry (attempts : Nat → PhysAttempt) (attempt : Nat) : RetryTrace :=
  let a := attempts attempt
  if a.response.status = 429 ∧ attempt < MAX_RETRIES then
    let w := computeWait (retryAfterHeader a.response) attempt
    let rest := sendRequestWithRetry attempts (attempt + 1)
    { result := rest.result, waits := w :: rest.waits, attemptsMade := rest.attemptsMade + 1 }
  else
    { result := if a.thrown then .error a.response else .ok a.response,
      waits := [], attemptsMade := 1 }
termination_by MAX_RETRIES - attempt
decreasing_by simp_wf; omega

/-- A per-account request queue's configuration (the `RequestQueue`
constructor argument in `jiraClient.ts:220-223`). -/
structure Queue where
  delayMs : Nat
  concurrent : Nat
deriving DecidableEq, Repr

/-- How `sendRequestWithAccount` dispatched the work: directly through the
retrying transport, or through a queue's `add`. -/
inductive DispatchMode where
  | direct
  | queued (q : Queue)
deriving DecidableEq, Repr

/-- The global `requestQueues` map, keyed by account alias. -/
def QueueRegistry := List (String × Queue)

/-- Lookup `requestQueues.get(alias)`: first binding of the alias in the registry. -/
def lookupQueue (reg : QueueRegistry) (a : String) : Option Queue :=
  match reg.find? (fun p => p.1 = a) with
  | some p => some p.2
  | none => none

/-- The queue-selection logic of `sendRequestWithAccount`
(`jiraClient.ts:216-242`): look the alias up, lazily create a queue when none
exists and rate limiting is enabled, then either run directly (no queue, or
rate limiting disabled) or enqueue.  Returns the dispatch mode and the updated
registry. -/
def sendRequestWithAccount (reg : QueueRegistry) (a : Account) :
    DispatchMode × QueueRegistry :=
  let queue0 := lookupQueue reg a.aliasName
  let created : Queue := { delayMs := a.rateLimitDelayMs, concurrent := a.rateLimitConcurrent }
  let queue := if queue0 = none ∧ a.rateLimitEnabled then some created else queue0
  let reg2 := if queue0 = none ∧ a.rateLimitEnabled then (a.aliasName, created) :: reg else reg
  match queue with
  | none => (.direct, reg2)
  | some q => if a.rateLimitEnabled then (.queued q, reg2) else (.direct, reg2)

/-- A JavaScript string as a list of characters, used where the URL-building
logic needs structural reasoning about individual slashes. -/
abbrev JStr := List Char

/-- Truthiness of an optional `JStr` (JavaScript: `undefined` and the empty
string are falsy). -/
def jstrTruthy : Option JStr → Bool
  | some s => s ≠ []
  | none => false

/-- Test `s.endsWith` for a slash on a `JStr`. -/
def endsWithSlash (s : JStr) : Bool :=
  match s.getLast? with
  | some c => c = '/'
  | none => false

/-- Test `s.startsWith` for a slash on a `JStr`. -/
def startsWithSlash : JStr → Bool
  | [] => false
  | c :: _ => c = '/'

/-- The fields of `RequestOptions` that `buildUrl` reads.  Query-parameter
objects are modelled by their serialised string (`URLSearchParams.toString`),
absent ones by `none`. -/
structure BuildUrlOptions where
  path : JStr
  path2025 : Option JStr
  queryParameters : Option JStr
  queryParameters2025 : Option JStr
  noBasePath : Bool

/-- Function `buildUrl` (`jiraClient.ts:64-78`): strip one trailing slash from the
host, give the base path (empty under `noBasePath`) a leading slash, pick
`path2025` when the account's 2025-API flag is set and `path2025` is truthy,
give the picked path a leading slash, concatenate, and attach the query
string — `queryParameters2025` whenever the flag is set, `queryParameters`
otherwise.  The `new URL` round-trip is modelled as the identity on the
already well-formed concatenation. -/
def buildUrl (host : JStr) (apiBasePath : JStr) (o : BuildUrlOptions)
    (use2025Api : Bool) : JStr :=
  let basePath := if o.noBasePath then [] else apiBasePath
  let normalizedHost := if endsWithSlash host then host.dropLast else host
  let normalizedBasePath :=
    if basePath = [] then []
    else if startsWithSlash basePath then basePath else '/' :: basePath
  let path :=
    if use2025Api && jstrTruthy o.path2025 then o.path2025.getD [] else o.path
  let normalizedPath := if startsWithSlash path then path else '/' :: path
  let base := normalizedHost ++ normalizedBasePath ++ normalizedPath
  match (if use2025Api then o.queryParameters2025 else o.queryParameters) with
  | some q => if q = [] then base else base ++ '?' :: q
  | none => base

/-- The parameters entering `ChangelogView.getCacheKey`
(`changelogView.ts:114-119`), together with the derived fields of the view
that do not enter the key. -/
structure ChangelogView where
  query : String
  limit : Nat
  period : Option Nat
  periodRaw : Option String
  fields : List String
  fieldsRaw : Option String
  excludeFields : List String
  excludeFieldsRaw : Option String
  groupBy : Option String
  accountAlias : Option String
deriving DecidableEq, Repr

/-- The fingerprint template literal of `ChangelogView.getCacheKey`:
`changelog:query:limit:periodRaw:fieldsRaw:excludeFieldsRaw:groupBy:alias`,
with falsy parts rendered as the empty string. -/
def changelogCacheKey (v : ChangelogView) : String :=
  "changelog:" ++ v.query ++ ":" ++ toString v.limit ++ ":" ++
    v.periodRaw.getD "" ++ ":" ++ v.fieldsRaw.getD "" ++ ":" ++
    v.excludeFieldsRaw.getD "" ++ ":" ++ v.groupBy.getD "" ++ ":" ++
    v.accountAlias.getD ""

/-- Method `ChangelogView.getCacheKey` with its memoising `_cacheKey` field made
explicit: recompute when the stored key is falsy, otherwise return it; the
returned pair is (result, updated `_cacheKey`). -/
def changelogGetCacheKey (v : ChangelogView) (cacheKey : Option String) :
    String × Option String :=
  if strTruthy cacheKey then (cacheKey.getD "", cacheKey)
  else (changelogCacheKey v, some (changelogCacheKey v))

/-- The parameters entering `KanbanView.getCacheKey`
(`kanbanView.ts:183-188`); `limit` is `number = null` in the source.  Fields
of the view that do not enter the key (columns, swimlane settings, …) are
summarised by `rest`. -/
structure KanbanView where
  query : String
  limit : Option Nat
  accountAlias : Option String
  rest : String
deriving DecidableEq, Repr

/-- Fragment `limit or empty` of the kanban fingerprint: `null` and `0` are falsy
and render as the empty string. -/
def kanbanLimitPart : Option Nat → String
  | some n => if n = 0 then "" else toString n
  | none => ""

/-- The fingerprint template literal of `KanbanView.getCacheKey`:
`kanban:query:limit:alias`, with falsy parts rendered as the empty string. -/
def kanbanCacheKey (v : KanbanView) : String :=
  "kanban:" ++ v.query ++ ":" ++ kanbanLimitPart v.limit ++ ":" ++
    v.accountAlias.getD ""

/-- Method `KanbanView.getCacheKey` with its memoising `_cacheKey` field made
explicit, as for the changelog view. -/
def kanbanGetCacheKey (v : KanbanView) (cacheKey : Option String) :
    String × Option String :=
  if strTruthy cacheKey then (cacheKey.getD "", cacheKey)
  else (kanbanCacheKey v, some (kanbanCacheKey v))

/-- The largest string length occurring in a list of strings. -/
def maxLen (l : List String) : Nat :=
  l.foldr (fun s m => max s.length m) 0

/-- Each member of a list is at most `maxLen` long. -/
theorem length_le_maxLen {s : String} {l : List String} (h : s ∈ l) :
    s.length ≤ maxLen l := by
  induction l with
  | nil => cases h
  | cons a t ih =>
    rcases List.mem_cons.mp h with rfl | h
    · exact Nat.le_max_left _ _ |>.trans_eq rfl
    · exact (ih h).trans (Nat.le_max_right _ _)

/-- The alias-dedup `while` loop of `accountsConflictsFix`
(`jiraClient.ts:1706`): append `'1'` to the alias until it no longer occurs
among the aliases already taken. -/
def fixAlias (taken : List String) (a : String) : String :=
  if a ∈ taken then fixAlias taken (a ++ "1") else a
termination_by maxLen taken + 1 - a.length
decreasing_by
  have hle : a.length ≤ maxLen taken := length_le_maxLen (by assumption)
  have h1 : "1".length = 1 := rfl
  have hlen : (a ++ "1").length = a.length + 1 := by rw [String.length_append, h1]
  simp_wf
  omega

/-- The reassignment loop of `accountsConflictsFix`: walk the (sorted)
accounts, de-conflict each alias against the ones already emitted, and assign
priorities `priority, priority+1, …` in order. -/
def conflictsFixLoop (aliases : List String) (priority : Nat) :
    List Account → List Account
  | [] => []
  | a :: rest =>
    let newAlias := fixAlias aliases a.aliasName
    { a with aliasName := newAlias, priority := priority } ::
      conflictsFixLoop (aliases ++ [newAlias]) (priority + 1) rest

/-- Stable insertion into a list sorted by ascending `priority`, modelling
`Array.prototype.sort` with comparator `(a, b) => a.priority - b.priority`. -/
def insertByPriority (a : Account) : List Account → List Account
  | [] => [a]
  | b :: rest =>
    if a.priority ≤ b.priority then a :: b :: rest else b :: insertByPriority a rest

/-- Sort accounts by ascending `priority` (stable, like the source's
`SettingsData.accounts.sort((a, b) => a.priority - b.priority)`). -/
def sortByPriority : List Account → List Account
  | [] => []
  | a :: rest => insertByPriority a (sortByPriority rest)

/-- Function `accountsConflictsFix` (`jiraClient.ts:1701-1712`): sort the accounts by
priority, then de-conflict aliases and reassign priorities `1..N`. -/
def accountsConflictsFix (accounts : List Account) : List Account :=
  conflictsFixLoop [] 1 (sortByPriority accounts)

/-- A JSON response necessarily carries a headers object. -/
theorem isJsonResponse_headers {r : Response} (h : isJsonResponse r = true) :
    r.headers.isSome = true := by
  unfold isJsonResponse at h
  cases hh : r.headers with
  | none => rw [hh] at h; cases h
  | some v => rfl

/-- The changelog fingerprint is never the empty string. -/
theorem changelogCacheKey_ne_empty (v : ChangelogView) : changelogCacheKey v ≠ "" := by
  intro h
  have hlen := congrArg String.length h
  simp only [changelogCacheKey, String.length_append] at hlen
  have h10 : "changelog:".length = 10 := rfl
  have h0 : ("" : String).length = 0 := rfl
  omega

/-- The kanban fingerprint is never the empty string. -/
theorem kanbanCacheKey_ne_empty (v : KanbanView) : kanbanCacheKey v ≠ "" := by
  intro h
  have hlen := congrArg String.length h
  simp only [kanbanCacheKey, String.length_append] at hlen
  have h7 : "kanban:".length = 7 := rfl
  have h0 : ("" : String).length = 0 := rfl
  omega

/-- C7: when an account's rate limiting is disabled, `sendRequestWithAccount`
dispatches directly through the retrying transport — no queue is used or
created, even when the registry already holds a queue for that alias, so the
work runs with direct-call latency. -/
theorem c7_disabled_rate_limit_is_direct (reg : QueueRegistry) (a : Account)
    (h : a.rateLimitEnabled = false) :
    sendRequestWithAccount reg a = (.direct, reg) := by
  unfold sendRequestWithAccount
  cases hq : lookupQueue reg a.aliasName <;> simp [h, hq]

/-- Witness for C7 at a registry that already holds a queue for the alias. -/
theorem c7_disabled_rate_limit_is_direct_witness :
    sendRequestWithAccount [("acc", ⟨100, 2⟩)] ⟨"acc", 1, "h", false, 100, 2, false⟩
      = (.direct, [("acc", ⟨100, 2⟩)]) :=
  c7_disabled_rate_limit_is_direct [("acc", ⟨100, 2⟩)] ⟨"acc", 1, "h", false, 100, 2, false⟩ rfl

/-- C9: cache fingerprints are deterministic — two changelog (resp. kanban)
views agreeing on the keyed parameters produce the same fingerprint, and the
memoised `getCacheKey` returns the same string on repeated calls. -/
theorem c9_cache_key_deterministic :
    (∀ v₁ v₂ : ChangelogView, v₁.query = v₂.query → v₁.limit = v₂.limit →
      v₁.periodRaw = v₂.periodRaw → v₁.fieldsRaw = v₂.fieldsRaw →
      v₁.excludeFieldsRaw = v₂.excludeFieldsRaw → v₁.groupBy = v₂.groupBy →
      v₁.accountAlias = v₂.accountAlias →
      (changelogGetCacheKey v₁ none).1 = (changelogGetCacheKey v₂ none).1)
    ∧ (∀ (v : ChangelogView) (st : Option String),
      (changelogGetCacheKey v (changelogGetCacheKey v st).2).1
        = (changelogGetCacheKey v st).1)
    ∧ (∀ w₁ w₂ : KanbanView, w₁.query = w₂.query → w₁.limit = w₂.limit →
      w₁.accountAlias = w₂.accountAlias →
      (kanbanGetCacheKey w₁ none).1 = (kanbanGetCacheKey w₂ none).1)
    ∧ (∀ (w : KanbanView) (st : Option String),
      (kanbanGetCacheKey w (kanbanGetCacheKey w st).2).1
        = (kanbanGetCacheKey w st).1) := by
  refine ⟨?_, ?_, ?_, ?_⟩
  · intro v₁ v₂ h1 h2 h3 h4 h5 h6 h7
    simp [changelogGetCacheKey, changelogCacheKey, strTruthy, h1, h2, h3, h4, h5, h6, h7]
  · intro v st
    by_cases h : strTruthy st = true
    · simp [changelogGetCacheKey, h]
    · simp only [changelogGetCacheKey, h]
      simp [strTruthy, changelogCacheKey_ne_empty v, h]
  · intro w₁ w₂ h1 h2 h3
    simp [kanbanGetCacheKey, kanbanCacheKey, strTruthy, h1, h2, h3]
  · intro w st
    by_cases h : strTruthy st = true
    · simp [kanbanGetCacheKey, h]
    · simp only [kanbanGetCacheKey, h]
      simp [strTruthy, kanbanCacheKey_ne_empty w, h]

/-- Witness for C9 at concrete views. -/
theorem c9_cache_key_deterministic_witness :
    (changelogGetCacheKey ⟨"q", 20, none, some "2h", [], none, [], none, none, some "acc"⟩ none).1
      = (changelogGetCacheKey ⟨"q", 20, some 7200000, some "2h", ["a"], none, [], none, none, some "acc"⟩ none).1 :=
  c9_cache_key_deterministic.1
    ⟨"q", 20, none, some "2h", [], none, [], none, none, some "acc"⟩
    ⟨"q", 20, some 7200000, some "2h", ["a"], none, [], none, none, some "acc"⟩
    rfl rfl rfl rfl rfl rfl rfl

/-- C3 fails as stated: with a present but unparseable `Retry-After` header,
the wait recorded before the retry is the `null` result of `parseRetryAfter`,
not the exponential-backoff value. -/
theorem c3_counterexample :
    (sendRequestWithRetry
        (fun i => if i = 0
          then ⟨⟨429, some ⟨none, some "not-a-date"⟩, none, none⟩, true⟩
          else ⟨⟨200, some ⟨none, none⟩, none, none⟩, false⟩) 0).waits
      = [none]
    ∧ (none : Option Nat) ≠ some (exponentialBackoff 0) := by
  constructor
  · rw [sendRequestWithRetry, sendRequestWithRetry]
    decide
  · simp

/-- C3 amended: before a retry the transport sleeps `computeWait` of the
`retry-after` header; that wait is the parsed header value when the header is
present and parseable, the exponential-backoff value when the header is absent
or empty, and `null` (no computed wait) when the header is present but
unparseable. -/
theorem c3_wait_time_amended (attempts : Nat → PhysAttempt) (attempt : Nat) :
    ((attempts attempt).response.status = 429 → attempt < MAX_RETRIES →
      (sendRequestWithRetry attempts attempt).waits.head?
        = some (computeWait (retryAfterHeader (attempts attempt).response) attempt))
    ∧ (∀ s v, s ≠ "" → parseRetryAfter s = some v →
        computeWait (some s) attempt = some v)
    ∧ (computeWait none attempt = some (exponentialBackoff attempt)
        ∧ computeWait (some "") attempt = some (exponentialBackoff attempt))
    ∧ (∀ s, s ≠ "" → parseRetryAfter s = none → computeWait (some s) attempt = none) := by
  refine ⟨?_, ?_, ?_, ?_⟩
  · intro h429 hlt
    rw [sendRequestWithRetry]
    simp [h429, hlt]
  · intro s v hs hp
    simp [computeWait, strTruthy, hs, hp]
  · constructor <;> simp [computeWait, strTruthy]
  · intro s hs hp
    simp [computeWait, strTruthy, hs, hp]

/-- Witness for C3's amended theorem: an integer header parses to
milliseconds, an absent header falls back to the backoff schedule, an
unparseable header yields a `null` wait. -/
theorem c3_wait_time_amended_witness :
    computeWait (some "120") 0 = some 120000
    ∧ computeWait none 0 = some (exponentialBackoff 0)
    ∧ computeWait (some "not-a-date") 0 = none :=
  ⟨(c3_wait_time_amended (fun _ => ⟨⟨200, none, none, none⟩, false⟩) 0).2.1 "120" 120000
      (by decide) (by decide),
    (c3_wait_time_amended (fun _ => ⟨⟨200, none, none, none⟩, false⟩) 0).2.2.1.1,
    (c3_wait_time_amended (fun _ => ⟨⟨200, none, none, none⟩, false⟩) 0).2.2.2 "not-a-date"
      (by decide) (by decide)⟩

/-- Appending a slash makes a string end with a slash. -/
theorem endsWithSlash_concat (s : JStr) : endsWithSlash (s ++ ['/']) = true := by
  simp [endsWithSlash]

/-- Prepending a slash makes a string start with a slash. -/
theorem startsWithSlash_cons (s : JStr) : startsWithSlash ('/' :: s) = true := by
  simp [startsWithSlash]

/-- C8 fails as stated: with the 2025-API flag set but no alternate path
provided, `buildUrl` keeps the primary resource path yet still selects the
alternate query parameters, so the URL carries `queryParameters2025` where the
claim predicts `queryParameters`. -/
theorem c8_counterexample :
    buildUrl "h".data "b".data
        ⟨"p".data, none, some "a=1".data, some "b=2".data, false⟩ true
      = "h/b/p?b=2".data
    ∧ buildUrl "h".data "b".data
        ⟨"p".data, none, some "a=1".data, some "b=2".data, false⟩ true
      ≠ "h/b/p?a=1".data := by
  constructor <;> decide

/-- C8 amended: every combination of a trailing-slash host variant, a
leading-slash base-path variant (or `noBasePath`), and a leading-slash
resource-path variant joins with exactly one separator; the alternate path is
used exactly when the 2025-API flag is set and a non-empty `path2025` is
provided; the alternate query parameters are used exactly when the flag is
set, even when no alternate path is provided. -/
theorem c8_buildUrl_amended (h0 b0 p0 p2 q1 q2 : JStr) (th tb tp : Bool)
    (hh : endsWithSlash h0 = false) (hb1 : startsWithSlash b0 = false)
    (hb0 : b0 ≠ []) (hp0 : startsWithSlash p0 = false)
    (hp2 : startsWithSlash p2 = false) (hp2n : p2 ≠ [])
    (hq1 : q1 ≠ []) (hq2 : q2 ≠ []) :
    (buildUrl (if th then h0 ++ ['/'] else h0) (if tb then '/' :: b0 else b0)
        ⟨(if tp then '/' :: p0 else p0), none, none, none, false⟩ false
      = h0 ++ '/' :: (b0 ++ '/' :: p0))
    ∧ (buildUrl (if th then h0 ++ ['/'] else h0) (if tb then '/' :: b0 else b0)
        ⟨(if tp then '/' :: p0 else p0), none, none, none, true⟩ false
      = h0 ++ '/' :: p0)
    ∧ (buildUrl (if th then h0 ++ ['/'] else h0) (if tb then '/' :: b0 else b0)
        ⟨(if tp then '/' :: p0 else p0), some p2, none, none, false⟩ true
      = h0 ++ '/' :: (b0 ++ '/' :: p2))
    ∧ (buildUrl (if th then h0 ++ ['/'] else h0) (if tb then '/' :: b0 else b0)
        ⟨(if tp then '/' :: p0 else p0), some p2, none, none, false⟩ false
      = h0 ++ '/' :: (b0 ++ '/' :: p0))
    ∧ (buildUrl (if th then h0 ++ ['/'] else h0) (if tb then '/' :: b0 else b0)
        ⟨(if tp then '/' :: p0 else p0), none, some q1, some q2, false⟩ true
      = h0 ++ '/' :: (b0 ++ '/' :: p0) ++ '?' :: q2)
    ∧ (buildUrl (if th then h0 ++ ['/'] else h0) (if tb then '/' :: b0 else b0)
        ⟨(if tp then '/' :: p0 else p0), none, some q1, some q2, false⟩ false
      = h0 ++ '/' :: (b0 ++ '/' :: p0) ++ '?' :: q1) := by
  cases th <;> cases tb <;> cases tp <;>
    refine ⟨?_, ?_, ?_, ?_, ?_, ?_⟩ <;>
      simp [buildUrl, jstrTruthy, endsWithSlash_concat, startsWithSlash_cons,
        hh, hb1, hb0, hp0, hp2, hp2n, hq1, hq2]

/-- Witness for C8's amended theorem at concrete parts. -/
theorem c8_buildUrl_amended_witness :
    buildUrl ("h".data ++ ['/']) ('/' :: "b".data)
        ⟨('/' :: "p".data), none, none, none, false⟩ false
      = "h".data ++ '/' :: ("b".data ++ '/' :: "p".data) :=
  (c8_buildUrl_amended "h".data "b".data "p".data "x".data "a".data "b".data
      true true true (by decide) (by decide) (by decide) (by decide)
      (by decide) (by decide) (by decide) (by decide)).1

/-- Walking a prefix of accounts that all answer 4xx only accumulates trace
entries and updates the captured last response; the loop's outcome is decided
by the remaining tail, started from the last prefix response. -/
theorem sendRequestLoop_append_4xx (respOf : Account → Response) :
    ∀ (P : List Account), (∀ x ∈ P, (respOf x).status / 100 = 4) →
    ∀ (tail : List Account) (last : Option Response),
      sendRequestLoop respOf (P ++ tail) last
        = ((sendRequestLoop respOf tail
              (match P.getLast? with
                | some p => some (respOf p)
                | none => last)).1,
            P ++ (sendRequestLoop respOf tail
              (match P.getLast? with
                | some p => some (respOf p)
                | none => last)).2) := by
  intro P
  induction P with
  | nil => intro _ tail last; simp
  | cons a t ih =>
    intro h4 tail last
    have hs := h4 a (List.mem_cons_self a t)
    have h204 : (respOf a).status ≠ 204 := by intro h; rw [h] at hs; omega
    have h200 : (respOf a).status ≠ 200 := by intro h; rw [h] at hs; omega
    have ht := ih (fun x hx => h4 x (List.mem_cons_of_mem a hx)) tail (some (respOf a))
    rw [List.cons_append, sendRequestLoop]
    rw [if_neg h204, if_neg (fun hc => h200 hc.1), if_neg (fun hc => hc hs)]
    dsimp only
    rw [ht]
    cases t with
    | nil => simp
    | cons b u =>
      rcases hgl : (b :: u).getLast? with _ | p
      · exact absurd hgl (by simp)
      · simp [hgl]

/-- C4: a logical request that names a specific account dispatches exactly
once, to that account only, and returns that dispatch's outcome — success on
204 or 200-with-JSON, the classified error otherwise — without consulting any
other configured account. -/
theorem c4_named_account_single_dispatch (accounts : List Account)
    (respOf : Account → Response) (a : Account) :
    (sendRequest accounts respOf (some a)).2 = [a]
    ∧ ((respOf a).status = 204 →
        sendRequest accounts respOf (some a) = (.noContent a, [a]))
    ∧ (∀ j, (respOf a).status = 200 → isJsonResponse (respOf a) = true →
        (respOf a).json = some j →
        sendRequest accounts respOf (some a) = (.success j a, [a]))
    ∧ ((respOf a).status ≠ 204 →
        ¬((respOf a).status = 200 ∧ isJsonResponse (respOf a) = true) →
        sendRequest accounts respOf (some a)
          = (.error (classify (some (respOf a))), [a])) := by
  refine ⟨?_, ?_, ?_, ?_⟩
  · unfold sendRequest; dsimp only; split_ifs <;> rfl
  · intro h; simp [sendRequest, h]
  · intro j h hj hjs; simp [sendRequest, h, hj, hjs]
  · intro h1 h2; simp [sendRequest, h1, h2]

/-- Witness for C4 at a concrete 204 response. -/
theorem c4_named_account_single_dispatch_witness :
    sendRequest [] (fun _ => ⟨204, none, none, none⟩) (some ⟨"A", 1, "h", false, 0, 0, false⟩)
      = (.noContent ⟨"A", 1, "h", false, 0, 0, false⟩, [⟨"A", 1, "h", false, 0, 0, false⟩]) :=
  (c4_named_account_single_dispatch [] (fun _ => ⟨204, none, none, none⟩)
    ⟨"A", 1, "h", false, 0, 0, false⟩).2.1 rfl

/-- C5: during multi-account fallback, the first response that is neither a
success (204, or 200-with-JSON) nor a 4xx stops the iteration: the trace ends
at that account, later accounts are never dispatched to, and that response is
classified into the final error. -/
theorem c5_non4xx_stops_iteration (P : List Account) (a : Account)
    (rest : List Account) (respOf : Account → Response)
    (h4 : ∀ x ∈ P, (respOf x).status / 100 = 4)
    (h204 : (respOf a).status ≠ 204)
    (h200 : ¬((respOf a).status = 200 ∧ isJsonResponse (respOf a) = true))
    (hnon4 : (respOf a).status / 100 ≠ 4) :
    sendRequest (P ++ a :: rest) respOf none
      = (.error (classify (some (respOf a))), P ++ [a]) := by
  have hloop := sendRequestLoop_append_4xx respOf P h4 (a :: rest) none
  simp only [sendRequest, hloop]
  simp [sendRequestLoop, h204, h200, hnon4]

/-- Witness for C5: a 500 on the second account stops the walk before the
third account. -/
theorem c5_non4xx_stops_iteration_witness :
    sendRequest
        [⟨"A", 1, "h", false, 0, 0, false⟩, ⟨"B", 2, "h", false, 0, 0, false⟩,
          ⟨"C", 3, "h", false, 0, 0, false⟩]
        (fun x => if x.aliasName = "A" then ⟨404, none, none, none⟩
          else ⟨500, none, none, none⟩) none
      = (.error (classify (some ⟨500, none, none, none⟩)),
          [⟨"A", 1, "h", false, 0, 0, false⟩, ⟨"B", 2, "h", false, 0, 0, false⟩]) :=
  c5_non4xx_stops_iteration [⟨"A", 1, "h", false, 0, 0, false⟩]
    ⟨"B", 2, "h", false, 0, 0, false⟩ [⟨"C", 3, "h", false, 0, 0, false⟩]
    (fun x => if x.aliasName = "A" then ⟨404, none, none, none⟩
      else ⟨500, none, none, none⟩)
    (by decide) (by decide) (by decide) (by decide)

/-- The `errorMessages` branch of `classify` does not apply: either the
response is not a JSON response, or its body has no `errorMessages` field. -/
def noErrorMessagesBranch (r : Response) : Prop :=
  r.json.bind (·.errorMessages) = none ∨ isJsonResponse r = false

/-- C6: the final error is classified from the last response — a JSON
`errorMessages` body is surfaced verbatim (joined by newlines) with priority;
otherwise 400, 401, 403, 404, 410 and 429 map to six pairwise-distinct fixed
messages; any other truthy status yields the status-coded generic message,
whose detail is the JSON `message` field when present and non-empty, the text
`Login required` for an HTML login page, and `HTTP <status>` otherwise. -/
theorem c6_error_taxonomy (r : Response) :
    (∀ msgs, isJsonResponse r = true → r.json.bind (·.errorMessages) = some msgs →
      classify (some r) = .message (String.intercalate "\n" msgs))
    ∧ (noErrorMessagesBranch r → r.status = 400 → classify (some r) = .message msg400)
    ∧ (noErrorMessagesBranch r → r.status = 401 → classify (some r) = .message msg401)
    ∧ (noErrorMessagesBranch r → r.status = 403 → classify (some r) = .message msg403)
    ∧ (noErrorMessagesBranch r → r.status = 404 → classify (some r) = .message msg404)
    ∧ (noErrorMessagesBranch r → r.status = 410 → classify (some r) = .message msg410)
    ∧ (noErrorMessagesBranch r → r.status = 429 → classify (some r) = .message msg429)
    ∧ ([msg400, msg401, msg403, msg404, msg410, msg429].Pairwise (· ≠ ·))
    ∧ (noErrorMessagesBranch r →
        r.status ∉ ([0, 400, 401, 403, 404, 410, 429] : List Nat) →
        classify (some r)
          = .message ("Jira API " ++ toString r.status ++ " Error: " ++ genericDetail r))
    ∧ (∀ m, isJsonResponse r = true → r.json.bind (·.message) = some m → m ≠ "" →
        genericDetail r = m)
    ∧ (¬(isJsonResponse r = true ∧ strTruthy (r.json.bind (·.message)) = true) →
        isTextResponse r = true → containsSubstr (r.text.getD "") "<title>Log in" = true →
        genericDetail r = "Login required")
    ∧ (¬(isJsonResponse r = true ∧ strTruthy (r.json.bind (·.message)) = true) →
        ¬(isTextResponse r = true ∧ containsSubstr (r.text.getD "") "<title>Log in" = true) →
        genericDetail r = "HTTP " ++ toString r.status) := by
  refine ⟨?_, ?_, ?_, ?_, ?_, ?_, ?_, ?_, ?_, ?_, ?_, ?_⟩
  · intro msgs hj hm
    simp [classify, hj, isJsonResponse_headers hj, hm]
  · intro hnem h
    unfold noErrorMessagesBranch at hnem
    rcases hnem with he | hj
    · simp [classify, he, h]
    · simp [classify, hj, h]
  · intro hnem h
    unfold noErrorMessagesBranch at hnem
    rcases hnem with he | hj
    · simp [classify, he, h]
    · simp [classify, hj, h]
  · intro hnem h
    unfold noErrorMessagesBranch at hnem
    rcases hnem with he | hj
    · simp [classify, he, h]
    · simp [classify, hj, h]
  · intro hnem h
    unfold noErrorMessagesBranch at hnem
    rcases hnem with he | hj
    · simp [classify, he, h]
    · simp [classify, hj, h]
  · intro hnem h
    unfold noErrorMessagesBranch at hnem
    rcases hnem with he | hj
    · simp [classify, he, h]
    · simp [classify, hj, h]
  · intro hnem h
    unfold noErrorMessagesBranch at hnem
    rcases hnem with he | hj
    · simp [classify, he, h]
    · simp [classify, hj, h]
  · decide
  · intro hnem hnin
    unfold noErrorMessagesBranch at hnem
    simp only [List.mem_cons, List.mem_singleton] at hnin
    push_neg at hnin
    obtain ⟨h0, h400, h401, h403, h404, h410, h429⟩ := hnin
    rcases hnem with he | hj
    · simp [classify, he, h0, h400, h401, h403, h404, h410, h429]
    · simp [classify, hj, h0, h400, h401, h403, h404, h410, h429]
  · intro m hj hm hne
    simp [genericDetail, hj, hm, strTruthy, hne]
  · intro hnm ht hc
    simp [genericDetail, hnm, ht, hc]
  · intro hnm hnt
    simp [genericDetail, hnm, hnt]

/-- Witness for C6 at a concrete JSON-less 404 response. -/
theorem c6_error_taxonomy_witness :
    classify (some ⟨404, some ⟨some "application/json", none⟩, some ⟨none, none, ""⟩, none⟩)
      = .message msg404 :=
  (c6_error_taxonomy
    ⟨404, some ⟨some "application/json", none⟩, some ⟨none, none, ""⟩, none⟩).2.2.2.2.1
    (Or.inl rfl) rfl

/-- C1: with no account named, the dispatcher walks the accounts in list
order (which is ascending priority order when the list is priority-sorted):
a prefix of 4xx answers is skipped, a later 200-with-JSON answer returns
immediately tagged with the serving account, and when every account answers
404 the final error is the classification of the last account's 404. -/
theorem c1_multi_account_fallback :
    (∀ (P : List Account) (b : Account) (rest : List Account)
        (respOf : Account → Response) (j : JsonBody),
      List.Pairwise (fun x y => x.priority ≤ y.priority) (P ++ b :: rest) →
      (∀ x ∈ P, (respOf x).status / 100 = 4) →
      (respOf b).status = 200 → isJsonResponse (respOf b) = true →
      (respOf b).json = some j →
      sendRequest (P ++ b :: rest) respOf none = (.success j b, P ++ [b])
      ∧ List.Pairwise (fun x y => x.priority ≤ y.priority) (P ++ [b]))
    ∧ (∀ (P : List Account) (l : Account) (respOf : Account → Response),
      (∀ x ∈ P ++ [l], (respOf x).status = 404) →
      sendRequest (P ++ [l]) respOf none
        = (.error (classify (some (respOf l))), P ++ [l])) := by
  constructor
  · intro P b rest respOf j hsort h4 hb hbj hjs
    constructor
    · have hloop := sendRequestLoop_append_4xx respOf P h4 (b :: rest) none
      simp only [sendRequest, hloop]
      simp [sendRequestLoop, hb, hbj, hjs]
    · refine hsort.sublist ?_
      exact List.Sublist.append_left (List.cons_sublist_cons.mpr (List.nil_sublist rest)) P
  · intro P l respOf hall
    have h4 : ∀ x ∈ P, (respOf x).status / 100 = 4 := by
      intro x hx
      rw [hall x (List.mem_append_left _ hx)]
    have hloop := sendRequestLoop_append_4xx respOf P h4 [l] none
    simp only [sendRequest, hloop]
    have hl : (respOf l).status = 404 := hall l (List.mem_append_right _ (List.mem_singleton_self l))
    simp [sendRequestLoop, hl]

/-- Witness for C1: account A (priority 1) answers 404, account B (priority 2)
answers 200-with-JSON — the result is tagged with B; when both answer 404,
the final error is B's classified 404. -/
theorem c1_multi_account_fallback_witness :
    (sendRequest
        [⟨"A", 1, "h", false, 0, 0, false⟩, ⟨"B", 2, "h", false, 0, 0, false⟩]
        (fun x => if x.priority = 1 then ⟨404, none, none, none⟩
          else ⟨200, some ⟨some "application/json", none⟩, some ⟨none, none, "data"⟩, none⟩)
        none
      = (.success ⟨none, none, "data"⟩ ⟨"B", 2, "h", false, 0, 0, false⟩,
          [⟨"A", 1, "h", false, 0, 0, false⟩, ⟨"B", 2, "h", false, 0, 0, false⟩]))
    ∧ (sendRequest
        [⟨"A", 1, "h", false, 0, 0, false⟩, ⟨"B", 2, "h", false, 0, 0, false⟩]
        (fun _ => ⟨404, none, none, none⟩) none
      = (.error (classify (some ⟨404, none, none, none⟩)),
          [⟨"A", 1, "h", false, 0, 0, false⟩, ⟨"B", 2, "h", false, 0, 0, false⟩])) :=
  ⟨(c1_multi_account_fallback.1 [⟨"A", 1, "h", false, 0, 0, false⟩]
      ⟨"B", 2, "h", false, 0, 0, false⟩ []
      (fun x => if x.priority = 1 then ⟨404, none, none, none⟩
        else ⟨200, some ⟨some "application/json", none⟩, some ⟨none, none, "data"⟩, none⟩)
      ⟨none, none, "data"⟩
      (by decide) (by decide) (by decide) (by decide) (by decide)).1,
    c1_multi_account_fallback.2 [⟨"A", 1, "h", false, 0, 0, false⟩]
      ⟨"B", 2, "h", false, 0, 0, false⟩ (fun _ => ⟨404, none, none, none⟩) (by decide)⟩

/-- C2: a 429 answered by a 200 completes with the 200 result after exactly
one retry (two physical attempts) and one sleep; when every attempt answers
429, the transport performs exactly `MAX_RETRIES` retries — `MAX_RETRIES + 1`
physical attempts — and then propagates the final 429 outcome (returned or
thrown as the last attempt delivered it) instead of retrying further. -/
theorem c2_retry_transport (attempts : Nat → PhysAttempt) :
    ((attempts 0).response.status = 429 → (attempts 1).response.status = 200 →
      (attempts 1).thrown = false →
      sendRequestWithRetry attempts 0 =
        { result := .ok (attempts 1).response,
          waits := [computeWait (retryAfterHeader (attempts 0).response) 0],
          attemptsMade := 2 })
    ∧ ((∀ i, i ≤ MAX_RETRIES → (attempts i).response.status = 429) →
      (sendRequestWithRetry attempts 0).attemptsMade = MAX_RETRIES + 1
      ∧ outcomeResponse (sendRequestWithRetry attempts 0).result
          = (attempts MAX_RETRIES).response
      ∧ (outcomeResponse (sendRequestWithRetry attempts 0).result).status = 429) := by
  constructor
  · intro h0 h1 ht
    rw [sendRequestWithRetry, sendRequestWithRetry]
    simp [h0, h1, ht, MAX_RETRIES]
  · intro h
    simp only [MAX_RETRIES] at h ⊢
    have e5 : sendRequestWithRetry attempts 5 =
        { result := if (attempts 5).thrown then .error (attempts 5).response
            else .ok (attempts 5).response,
          waits := [], attemptsMade := 1 } := by
      rw [sendRequestWithRetry]
      simp [MAX_RETRIES]
    have step : ∀ k, k < 5 → sendRequestWithRetry attempts k =
        { result := (sendRequestWithRetry attempts (k + 1)).result,
          waits := computeWait (retryAfterHeader (attempts k).response) k
            :: (sendRequestWithRetry attempts (k + 1)).waits,
          attemptsMade := (sendRequestWithRetry attempts (k + 1)).attemptsMade + 1 } := by
      intro k hk
      rw [sendRequestWithRetry]
      simp [h k (by omega), hk, MAX_RETRIES]
    have hall : sendRequestWithRetry attempts 0 =
        { result := (sendRequestWithRetry attempts 5).result,
          waits := computeWait (retryAfterHeader (attempts 0).response) 0
            :: computeWait (retryAfterHeader (attempts 1).response) 1
            :: computeWait (retryAfterHeader (attempts 2).response) 2
            :: computeWait (retryAfterHeader (attempts 3).response) 3
            :: computeWait (retryAfterHeader (attempts 4).response) 4
            :: (sendRequestWithRetry attempts 5).waits,
          attemptsMade := (sendRequestWithRetry attempts 5).attemptsMade + 1 + 1 + 1 + 1 + 1 } := by
      rw [step 0 (by omega), step 1 (by omega), step 2 (by omega), step 3 (by omega),
        step 4 (by omega)]
    rw [hall, e5]
    refine ⟨rfl, ?_, ?_⟩ <;>
      cases h5 : (attempts 5).thrown <;>
        simp [outcomeResponse, MAX_RETRIES, h 5 (by omega)]

/-- Witness for C2: a 429-then-200 stream completes with the 200 after two
attempts and one sleep; an all-429 stream makes six attempts and surfaces
the 429. -/
theorem c2_retry_transport_witness :
    (sendRequestWithRetry
        (fun i => if i = 0 then ⟨⟨429, none, none, none⟩, true⟩
          else ⟨⟨200, none, none, none⟩, false⟩) 0 =
      { result := .ok ⟨200, none, none, none⟩,
        waits := [some (exponentialBackoff 0)], attemptsMade := 2 })
    ∧ (sendRequestWithRetry (fun _ => ⟨⟨429, none, none, none⟩, true⟩) 0).attemptsMade
        = MAX_RETRIES + 1 := by
  constructor
  · have h := (c2_retry_transport
      (fun i => if i = 0 then ⟨⟨429, none, none, none⟩, true⟩
        else ⟨⟨200, none, none, none⟩, false⟩)).1 rfl rfl rfl
    rw [h]
    simp [computeWait, retryAfterHeader, strTruthy]
  · exact ((c2_retry_transport (fun _ => ⟨⟨429, none, none, none⟩, true⟩)).2
      (fun i _ => rfl)).1

/-- The alias-dedup loop always lands outside the taken list. -/
theorem fixAlias_not_mem (taken : List String) : ∀ a, fixAlias taken a ∉ taken :=
  fixAlias.induct taken (fun s => fixAlias taken s ∉ taken)
    (fun x hx ih => by
      show fixAlias taken x ∉ taken
      rw [fixAlias.eq_def, if_pos hx]; exact ih)
    (fun x hx => by
      show fixAlias taken x ∉ taken
      rw [fixAlias.eq_def, if_neg hx]; exact hx)

/-- The reassignment loop hands out priorities `p, p+1, ...` in order. -/
theorem conflictsFixLoop_get_priority (l : List Account) :
    ∀ (aliases : List String) (p i : Nat) (h : i < (conflictsFixLoop aliases p l).length),
      ((conflictsFixLoop aliases p l).get ⟨i, h⟩).priority = p + i := by
  induction l with
  | nil => intro aliases p i h; simp [conflictsFixLoop] at h
  | cons a t ih =>
    intro aliases p i h
    cases i with
    | zero => simp [conflictsFixLoop]
    | succ n =>
      have h2 : n < (conflictsFixLoop (aliases ++ [fixAlias aliases a.aliasName]) (p + 1) t).length := by
        simpa [conflictsFixLoop] using h
      have hstep : ((conflictsFixLoop aliases p (a :: t)).get ⟨n + 1, h⟩).priority
          = ((conflictsFixLoop (aliases ++ [fixAlias aliases a.aliasName]) (p + 1) t).get
              ⟨n, h2⟩).priority := by
        simp [conflictsFixLoop]
      rw [hstep, ih]
      omega

/-- The reassignment loop emits pairwise-distinct aliases, all of them
outside the incoming taken list. -/
theorem conflictsFixLoop_aliasNames (l : List Account) :
    ∀ (aliases : List String) (p : Nat),
      ((conflictsFixLoop aliases p l).map (·.aliasName)).Nodup
      ∧ ∀ s ∈ (conflictsFixLoop aliases p l).map (·.aliasName), s ∉ aliases := by
  induction l with
  | nil => intro aliases p; simp [conflictsFixLoop]
  | cons a t ih =>
    intro aliases p
    obtain ⟨hnd, hdisj⟩ := ih (aliases ++ [fixAlias aliases a.aliasName]) (p + 1)
    constructor
    · simp only [conflictsFixLoop, List.map_cons, List.nodup_cons]
      refine ⟨fun hmem => ?_, hnd⟩
      exact (hdisj _ hmem) (List.mem_append_right _ (List.mem_singleton_self _))
    · intro s hs
      simp only [conflictsFixLoop, List.map_cons, List.mem_cons] at hs
      rcases hs with rfl | hs
      · exact fixAlias_not_mem aliases a.aliasName
      · exact fun hmem => (hdisj s hs) (List.mem_append_left _ hmem)

/-- C10: after `accountsConflictsFix`, priorities are exactly `1..N` in array
order (the account at index `i` has priority `i+1`, so index order and
ascending priority order coincide), and aliases are pairwise distinct, so the
alias-keyed queue registry maps each account to its own queue. -/
theorem c10_accounts_conflicts_fix_invariant (accounts : List Account) :
    ((accountsConflictsFix accounts).map (·.priority)
        = List.range' 1 (accountsConflictsFix accounts).length)
    ∧ (∀ i : Fin (accountsConflictsFix accounts).length,
        ((accountsConflictsFix accounts).get i).priority = i.val + 1)
    ∧ ((accountsConflictsFix accounts).map (·.aliasName)).Nodup
    ∧ List.Pairwise (fun x y => x.priority < y.priority) (accountsConflictsFix accounts)
    ∧ (∀ i j : Fin (accountsConflictsFix accounts).length, i ≠ j →
        ((accountsConflictsFix accounts).get i).aliasName
          ≠ ((accountsConflictsFix accounts).get j).aliasName) := by
  have hget : ∀ i : Fin (accountsConflictsFix accounts).length,
      ((accountsConflictsFix accounts).get i).priority = i.val + 1 := by
    intro i
    have := conflictsFixLoop_get_priority (sortByPriority accounts) [] 1 i.val
      (by simpa [accountsConflictsFix] using i.isLt)
    simpa [accountsConflictsFix, Nat.add_comm] using this
  have hnodup := (conflictsFixLoop_aliasNames (sortByPriority accounts) [] 1).1
  have hpw : List.Pairwise (fun x y => x.priority < y.priority)
      (accountsConflictsFix accounts) := by
    rw [List.pairwise_iff_get]
    intro i j hij
    rw [hget i, hget j]
    omega
  refine ⟨?_, hget, hnodup, hpw, ?_⟩
  · apply List.ext_getElem
    · simp [List.length_range']
    · intro n h1 h2
      have hn : n < (accountsConflictsFix accounts).length := by simpa using h1
      calc ((accountsConflictsFix accounts).map (·.priority))[n]
          = ((accountsConflictsFix accounts).get ⟨n, hn⟩).priority := by
            simp [List.getElem_map]
        _ = n + 1 := hget ⟨n, hn⟩
        _ = (List.range' 1 (accountsConflictsFix accounts).length)[n] := by
            rw [List.getElem_range'_1]
            omega
  · intro i j hij
    have hpm := List.pairwise_map.mp hnodup
    have hg := List.pairwise_iff_get.mp hpm
    rcases lt_or_gt_of_ne hij with hlt | hlt
    · exact hg i j hlt
    · exact (hg j i hlt).symm

/-- Witness for C10 at a concrete conflicting configuration: two accounts
both aliased `x` with priorities 7 and 3 come out as priorities `[1, 2]` with
distinct aliases. -/
theorem c10_accounts_conflicts_fix_invariant_witness :
    ((accountsConflictsFix
        [⟨"x", 7, "h", false, 0, 0, false⟩, ⟨"x", 3, "h", false, 0, 0, false⟩]).map
          (·.priority)
        = List.range' 1 (accountsConflictsFix
            [⟨"x", 7, "h", false, 0, 0, false⟩, ⟨"x", 3, "h", false, 0, 0, false⟩]).length)
    ∧ ((accountsConflictsFix
        [⟨"x", 7, "h", false, 0, 0, false⟩, ⟨"x", 3, "h", false, 0, 0, false⟩]).map
          (·.aliasName)).Nodup :=
  ⟨(c10_accounts_conflicts_fix_invariant
      [⟨"x", 7, "h", false, 0, 0, false⟩, ⟨"x", 3, "h", false, 0, 0, false⟩]).1,
    (c10_accounts_conflicts_fix_invariant
      [⟨"x", 7, "h", false, 0, 0, false⟩, ⟨"x", 3, "h", false, 0, 0, false⟩]).2.2.1⟩

end Jira
